import Mathlib

/-!
Verification of the registration layer in `lib/awsflow/workflow_definition.py`
(botoflow). We shallowly embed the Python semantics the module relies on:

* dictionaries are heap objects with identity (so in-place `dict.update` on an
  inherited attribute mutates the ancestor's object, exactly as CPython does);
* classes perform attribute lookup along their method-resolution order;
* workflow-type descriptors are heap objects whose display name is mutated by
  `_reset_name`;
* `_WorkflowDefinitionMeta.__init__` becomes a state transformer `metaInit` on
  a `World` holding the heap and the class table.

The per-instance model (`WorkflowDefinition.__init__` and its properties) is
embedded as a record with getter/setter functions.
-/

/-- A signal-type descriptor: the metaclass only reads its `name` field. -/
structure SignalType where
  name : String
deriving DecidableEq, Repr

/-- The `swf_options` record a classified callable carries: at most one of
`signal_type` / `workflow_type`.  A workflow type is a heap reference (`Nat`)
because `_reset_name` mutates the descriptor object in place. -/
structure SwfOptions where
  signal_type : Option SignalType
  workflow_type : Option Nat
deriving DecidableEq, Repr

/-- The underlying function of a classified member: `func.swf_options` (absent
when the function carries no classification), `func.__name__`, and an identity
(`funcId`) standing for the callable object itself. -/
structure Func where
  swf_options : Option SwfOptions
  funcName : String
  funcId : Nat
deriving DecidableEq, Repr

/-- One value of the class body dict `dct`: the metaclass tests
`hasattr(val, 'func')`, so the wrapper's `func` is optional. -/
structure Member where
  func : Option Func
deriving DecidableEq, Repr

/-- A Python class as the metaclass sees it: its `__name__`, its method
resolution order (self first), and its *own* `__dict__` entries for
`_workflow_signals` / `_workflow_types` — each an optional reference to a heap
dict (absent when the attribute is only inherited). -/
structure ClassObj where
  cname : String
  mro : List Nat
  sigAttr : Option Nat := none
  typeAttr : Option Nat := none
deriving DecidableEq, Repr

instance : Inhabited ClassObj := ⟨{ cname := "", mro := [] }⟩

/-- The mutable world: the class table and the heap of signal dicts
(name → callable identity), workflow-type dicts (descriptor reference →
method name) and workflow-type descriptor names. -/
structure World where
  classes : Nat → ClassObj
  numClasses : Nat
  sigDicts : Nat → List (String × Nat)
  numSigDicts : Nat
  typeDicts : Nat → List (Nat × String)
  numTypeDicts : Nat
  wtypeNames : Nat → String
  numWTypes : Nat

def emptyWorld : World where
  classes := fun _ => { cname := "", mro := [] }
  numClasses := 0
  sigDicts := fun _ => []
  numSigDicts := 0
  typeDicts := fun _ => []
  numTypeDicts := 0
  wtypeNames := fun _ => ""
  numWTypes := 0

/-- Python dict insertion `d[k] = v`: overwrite in place when the key exists
(keeping its position), append otherwise. -/
def updOrAppend {α β : Type} [DecidableEq α] (d : List (α × β)) (k : α) (v : β) :
    List (α × β) :=
  if d.any (fun p => p.1 = k) then
    d.map (fun p => if p.1 = k then (k, v) else p)
  else d ++ [(k, v)]

/-- Python `d.update(other)`: insert every entry of `other`, in order. -/
def dictUpdate {α β : Type} [DecidableEq α] (d other : List (α × β)) :
    List (α × β) :=
  other.foldl (fun acc p => updOrAppend acc p.1 p.2) d

/-- Association-list lookup (first match), matching Python dict lookup. -/
def alookup {α β : Type} [DecidableEq α] (d : List (α × β)) (k : α) : Option β :=
  match d with
  | [] => none
  | p :: rest => if p.1 = k then some p.2 else alookup rest k

/-- Allocate a fresh workflow-type descriptor object with an initial display
name (what the classifier would have set before class construction). -/
def allocWType (w : World) (n : String) : World × Nat :=
  ({ w with
      wtypeNames := fun i => if i = w.numWTypes then n else w.wtypeNames i,
      numWTypes := w.numWTypes + 1 },
   w.numWTypes)

/-- The current display name of a workflow-type descriptor. -/
def wtypeName (w : World) (wt : Nat) : String := w.wtypeNames wt

/-- The scan loop over `six.itervalues(dct)`: collect newly declared signal
handlers into the local dict `signals` (`signals[signal_type.name] = func`)
and newly declared entry points into the local list `_workflow_types`
(`append((workflow_type, func.__name__))`).  The `elif` makes the signal
classification take precedence. -/
def scanDct (dct : List Member) : List (String × Nat) × List (Nat × String) :=
  dct.foldl
    (fun acc val =>
      match val.func with
      | none => acc
      | some f =>
        match f.swf_options with
        | none => acc
        | some opts =>
          match opts.signal_type with
          | some st => (updOrAppend acc.1 st.name f.funcId, acc.2)
          | none =>
            match opts.workflow_type with
            | some wt => (acc.1, acc.2 ++ [(wt, f.funcName)])
            | none => acc)
    ([], [])

/-- `getattr`/`hasattr` for `_workflow_signals`: the first class along the MRO
whose own dict binds the attribute, returning the heap reference it holds. -/
def findSigAttr (w : World) (cid : Nat) : Option Nat :=
  (w.classes cid).mro.findSome? (fun i => (w.classes i).sigAttr)

/-- `getattr`/`hasattr` for `_workflow_types`. -/
def findTypeAttr (w : World) (cid : Nat) : Option Nat :=
  (w.classes cid).mro.findSome? (fun i => (w.classes i).typeAttr)

/-- Left-to-right first-occurrence deduplication, used to linearize base-class
MROs (coincides with Python's C3 order on the single-inheritance hierarchies
considered here). -/
def dedupKeepFirst (l : List Nat) : List Nat :=
  l.foldl (fun acc x => if acc.contains x then acc else acc ++ [x]) []

/-- `type.__init__` part of class construction: enter the new class in the
class table with its name and MRO and no own catalog attributes. -/
def addClassObj (w : World) (c : ClassObj) : World :=
  { w with
      classes := fun i => if i = w.numClasses then c else w.classes i,
      numClasses := w.numClasses + 1 }

/-- `setattr(cls, '_workflow_signals', d)` on class `cid`. -/
def setClassSigAttr (w : World) (cid did : Nat) : World :=
  { w with
      classes := fun i =>
        if i = cid then { w.classes cid with sigAttr := some did }
        else w.classes i }

/-- `setattr(cls, '_workflow_types', d)` on class `cid`. -/
def setClassTypeAttr (w : World) (cid did : Nat) : World :=
  { w with
      classes := fun i =>
        if i = cid then { w.classes cid with typeAttr := some did }
        else w.classes i }

/-- Allocate a fresh signal dict holding `d`, returning its reference
implicitly as the pre-allocation `numSigDicts`. -/
def allocSigDict (w : World) (d : List (String × Nat)) : World :=
  { w with
      sigDicts := fun i => if i = w.numSigDicts then d else w.sigDicts i,
      numSigDicts := w.numSigDicts + 1 }

/-- Overwrite the *contents* of the existing signal dict object `did`
(in-place mutation, visible through every alias). -/
def writeSigDict (w : World) (did : Nat) (d : List (String × Nat)) : World :=
  { w with sigDicts := fun i => if i = did then d else w.sigDicts i }

def allocTypeDict (w : World) (d : List (Nat × String)) : World :=
  { w with
      typeDicts := fun i => if i = w.numTypeDicts then d else w.typeDicts i,
      numTypeDicts := w.numTypeDicts + 1 }

def writeTypeDict (w : World) (did : Nat) (d : List (Nat × String)) : World :=
  { w with typeDicts := fun i => if i = did then d else w.typeDicts i }

/-- The renaming effect of the `for workflow_type, func_name in _workflow_types`
loop: each listed descriptor gets `_reset_name(cls.__name__)`. -/
def resetNames (n : String) (wtList : List (Nat × String)) (w : World) : World :=
  wtList.foldl
    (fun w2 e =>
      { w2 with wtypeNames := fun i => if i = e.1 then n else w2.wtypeNames i })
    w

/-- The dict-building effect of the same loop:
`workflow_types[workflow_type] = func_name` into a fresh local dict. -/
def buildTypeDict (wtList : List (Nat × String)) : List (Nat × String) :=
  wtList.foldl (fun acc e => updOrAppend acc e.1 e.2) []

/-- The `_workflow_signals` block: if no class along the MRO has the
attribute, `setattr` the local `signals` dict as a fresh heap object;
otherwise `cls._workflow_signals.update(signals)` mutates the *found*
(possibly ancestor-owned) dict object in place and attaches nothing to `cls`
itself. -/
def attachSignals (w : World) (cid : Nat) (signals : List (String × Nat)) :
    World :=
  match findSigAttr w cid with
  | none => setClassSigAttr (allocSigDict w signals) cid w.numSigDicts
  | some did => writeSigDict w did (dictUpdate (w.sigDicts did) signals)

/-- The `_workflow_types` block: `setattr` a fresh dict when no class along
the MRO has the attribute, in-place `update` of the found dict otherwise. -/
def attachTypes (w : World) (cid : Nat) (workflow_types : List (Nat × String)) :
    World :=
  match findTypeAttr w cid with
  | none => setClassTypeAttr (allocTypeDict w workflow_types) cid w.numTypeDicts
  | some did => writeTypeDict w did (dictUpdate (w.typeDicts did) workflow_types)

/-- The attachment phase of `_WorkflowDefinitionMeta.__init__`, run only when
the class under construction is not named `WorkflowDefinition`: the
`_workflow_signals` block, then the entry-point loop (each newly declared
descriptor renamed to `cls.__name__`, and the fresh local `workflow_types`
dict built — the source's single loop, split into its two independent
effects), then the `_workflow_types` block. -/
def attachCatalogs (w : World) (cid : Nat) (n : String)
    (signals : List (String × Nat)) (wtList : List (Nat × String)) : World :=
  attachTypes (resetNames n wtList (attachSignals w cid signals)) cid
    (buildTypeDict wtList)

/-- `_WorkflowDefinitionMeta.__init__(cls, name, bases, dct)` as a state
transformer; returns the new world and the new class's id.

Faithful to the source:
1. scan `dct` for newly declared signal handlers and entry points;
2. `super().__init__` (here: enter the class with its MRO);
3. `if cls.__name__ == 'WorkflowDefinition': return` — nothing attached;
4. otherwise attach/merge the two catalogs (`attachCatalogs`). -/
def metaInit (w : World) (n : String) (bases : List Nat) (dct : List Member) :
    World × Nat :=
  let scanned := scanDct dct
  let cid := w.numClasses
  let mro := cid :: dedupKeepFirst (bases.map (fun b => (w.classes b).mro)).flatten
  let w1 := addClassObj w { cname := n, mro := mro }
  if n = "WorkflowDefinition" then (w1, cid)
  else (attachCatalogs w1 cid n scanned.1 scanned.2, cid)

/-- A class's effective signal catalog: the dict reached by attribute lookup
(empty when no class along the MRO carries the attribute). -/
def signalCatalog (w : World) (cid : Nat) : List (String × Nat) :=
  match findSigAttr w cid with
  | none => []
  | some did => w.sigDicts did

/-- A class's effective entry-point catalog. -/
def typeCatalog (w : World) (cid : Nat) : List (Nat × String) :=
  match findTypeAttr w cid with
  | none => []
  | some did => w.typeDicts did

/-- A class body member declaring a signal handler named `sname` whose
handler callable is `fid`. -/
def signalMember (sname : String) (fid : Nat) : Member :=
  { func := some
      { swf_options := some { signal_type := some { name := sname },
                              workflow_type := none },
        funcName := "",
        funcId := fid } }

/-- A class body member declaring a workflow entry point: method `fname`,
descriptor reference `wt`, callable `fid`. -/
def executeMember (wt : Nat) (fname : String) (fid : Nat) : Member :=
  { func := some
      { swf_options := some { signal_type := none, workflow_type := some wt },
        funcName := fname,
        funcId := fid } }

/-- A class body member carrying both classifications at once (malformed by
convention; the `elif` makes the signal entry win). -/
def bothMember (sname : String) (wt : Nat) (fname : String) (fid : Nat) : Member :=
  { func := some
      { swf_options := some { signal_type := some { name := sname },
                              workflow_type := some wt },
        funcName := fname,
        funcId := fid } }

/-- One class definition of a program: name, base-class ids, body members. -/
structure ClassDecl where
  dname : String
  dbases : List Nat
  ddct : List Member
deriving Repr

/-- Run a sequence of class definitions from the empty world, in declaration
order, as the host language does. -/
def runProgram (prog : List ClassDecl) : World :=
  prog.foldl (fun w d => (metaInit w d.dname d.dbases d.ddct).1) emptyWorld

/-! ## The per-instance model (`WorkflowDefinition.__init__` and properties) -/

/-- The `WorkflowExecution` named tuple: the execution identity pair. -/
structure WorkflowExecution where
  workflow_id : String
  run_id : String
deriving DecidableEq, Repr

/-- An instance of a `WorkflowDefinition` subclass: the three attributes set
by `__init__` (`self.workflow_execution`, `self.workflow_state`,
`self._workflow_result`; the result future is kept opaque as a reference). -/
structure WorkflowInstance where
  workflow_execution : WorkflowExecution
  workflow_state : String
  workflow_result : Option Nat
deriving DecidableEq, Repr

/-- `WorkflowDefinition.__init__(self, workflow_execution)`. -/
def initWorkflowDefinition (we : WorkflowExecution) : WorkflowInstance :=
  { workflow_execution := we, workflow_state := "", workflow_result := none }

/-- The `workflow_execution` property getter. -/
def getWorkflowExecution (o : WorkflowInstance) : WorkflowExecution :=
  o.workflow_execution

/-- The `workflow_state` property getter. -/
def getWorkflowState (o : WorkflowInstance) : String :=
  o.workflow_state

/-- The `workflow_state` property setter. -/
def setWorkflowState (o : WorkflowInstance) (s : String) : WorkflowInstance :=
  { o with workflow_state := s }

/-- The `workflow_result` property getter. -/
def getWorkflowResult (o : WorkflowInstance) : Option Nat :=
  o.workflow_result

/-- The post-construction operations of the public contract: status get/set
and result-handle get (getters leave the instance unchanged). -/
inductive PublicOp where
  | getState : PublicOp
  | setState : String → PublicOp
  | getResult : PublicOp
deriving DecidableEq, Repr

def applyPublicOp (o : WorkflowInstance) : PublicOp → WorkflowInstance
  | PublicOp.getState => o
  | PublicOp.setState s => setWorkflowState o s
  | PublicOp.getResult => o

def runPublicOps (o : WorkflowInstance) (ops : List PublicOp) : WorkflowInstance :=
  ops.foldl applyPublicOp o

/-! ## Concrete hierarchies used as test inputs -/

/-- Scenario B, step 1: the abstract base `W = WorkflowDefinition`. -/
def sbW : World × Nat := metaInit emptyWorld "WorkflowDefinition" [] []

/-- Scenario B, step 2: `A(W)` declares signal handler `ping → h1`
(callable identity 1). -/
def sbA : World × Nat := metaInit sbW.1 "A" [sbW.2] [signalMember ("ping") 1]

/-- Scenario B, step 3: `B(A)` declares signal handler `ping → h2`
(callable identity 2). -/
def sbB : World × Nat := metaInit sbA.1 "B" [sbA.2] [signalMember ("ping") 2]

/-- Sibling scenario, step 1: the abstract base `W`. -/
def sibW : World × Nat := metaInit emptyWorld "WorkflowDefinition" [] []

/-- Sibling scenario, step 2: `A(W)` with an arbitrary class body. -/
def sibA (dctA : List Member) : World × Nat :=
  metaInit sibW.1 "A" [sibW.2] dctA

/-- Sibling scenario, step 3: `C(W)` with an arbitrary class body, constructed
after `A`. -/
def sibC (dctA dctC : List Member) : World × Nat :=
  metaInit (sibA dctA).1 "C" [sibW.2] dctC

/-- Inheritance-merge scenario, step 0: a workflow-type descriptor whose
display name starts as the decorated method would have left it. -/
def ihT : World × Nat := allocWType emptyWorld ("start_workflow")

/-- Inheritance-merge scenario, step 1: the abstract base. -/
def ihW : World × Nat := metaInit ihT.1 "WorkflowDefinition" [] []

/-- Inheritance-merge scenario, step 2: `A(W)` declares entry point `run`
with the descriptor. -/
def ihA : World × Nat := metaInit ihW.1 "A" [ihW.2] [executeMember ihT.2 ("run") 1]

/-- Inheritance-merge scenario, step 3: `B(A)` declares nothing of its own. -/
def ihB : World × Nat := metaInit ihA.1 "B" [ihA.2] []

/-- No class named `WorkflowDefinition` carries an own catalog attribute. -/
def WDClean (f : Nat → ClassObj) : Prop :=
  ∀ cid, (f cid).cname = "WorkflowDefinition" →
    (f cid).sigAttr = none ∧ (f cid).typeAttr = none

/-! ## Basic lemmas about the world operations -/

@[simp]
lemma classes_allocSigDict (w : World) (d : List (String × Nat)) :
    (allocSigDict w d).classes = w.classes := rfl

@[simp]
lemma classes_writeSigDict (w : World) (did : Nat) (d : List (String × Nat)) :
    (writeSigDict w did d).classes = w.classes := rfl

@[simp]
lemma classes_allocTypeDict (w : World) (d : List (Nat × String)) :
    (allocTypeDict w d).classes = w.classes := rfl

@[simp]
lemma classes_writeTypeDict (w : World) (did : Nat) (d : List (Nat × String)) :
    (writeTypeDict w did d).classes = w.classes := rfl

@[simp]
lemma resetNames_classes (n : String) (l : List (Nat × String)) (w : World) :
    (resetNames n l w).classes = w.classes := by
  induction l generalizing w with
  | nil => rfl
  | cons e t ih =>
    have h := ih { w with wtypeNames := fun i => if i = e.1 then n else w.wtypeNames i }
    simpa [resetNames, List.foldl_cons] using h

@[simp]
lemma resetNames_sigDicts (n : String) (l : List (Nat × String)) (w : World) :
    (resetNames n l w).sigDicts = w.sigDicts := by
  induction l generalizing w with
  | nil => rfl
  | cons e t ih =>
    have h := ih { w with wtypeNames := fun i => if i = e.1 then n else w.wtypeNames i }
    simpa [resetNames, List.foldl_cons] using h

@[simp]
lemma resetNames_numSigDicts (n : String) (l : List (Nat × String)) (w : World) :
    (resetNames n l w).numSigDicts = w.numSigDicts := by
  induction l generalizing w with
  | nil => rfl
  | cons e t ih =>
    have h := ih { w with wtypeNames := fun i => if i = e.1 then n else w.wtypeNames i }
    simpa [resetNames, List.foldl_cons] using h

@[simp]
lemma resetNames_typeDicts (n : String) (l : List (Nat × String)) (w : World) :
    (resetNames n l w).typeDicts = w.typeDicts := by
  induction l generalizing w with
  | nil => rfl
  | cons e t ih =>
    have h := ih { w with wtypeNames := fun i => if i = e.1 then n else w.wtypeNames i }
    simpa [resetNames, List.foldl_cons] using h

@[simp]
lemma resetNames_numTypeDicts (n : String) (l : List (Nat × String)) (w : World) :
    (resetNames n l w).numTypeDicts = w.numTypeDicts := by
  induction l generalizing w with
  | nil => rfl
  | cons e t ih =>
    have h := ih { w with wtypeNames := fun i => if i = e.1 then n else w.wtypeNames i }
    simpa [resetNames, List.foldl_cons] using h

@[simp]
lemma resetNames_numClasses (n : String) (l : List (Nat × String)) (w : World) :
    (resetNames n l w).numClasses = w.numClasses := by
  induction l generalizing w with
  | nil => rfl
  | cons e t ih =>
    have h := ih { w with wtypeNames := fun i => if i = e.1 then n else w.wtypeNames i }
    simpa [resetNames, List.foldl_cons] using h

/-- The renaming loop gives name `n` to exactly the descriptors listed. -/
lemma resetNames_wtypeNames (n : String) (l : List (Nat × String)) (w : World)
    (i : Nat) :
    (resetNames n l w).wtypeNames i =
      if i ∈ l.map Prod.fst then n else w.wtypeNames i := by
  induction l generalizing w with
  | nil => simp [resetNames]
  | cons e t ih =>
    rw [show resetNames n (e :: t) w = resetNames n t
      { w with wtypeNames := fun j => if j = e.1 then n else w.wtypeNames j } from rfl]
    rw [ih]
    by_cases hi : i ∈ t.map Prod.fst
    · simp [hi, List.mem_cons]
    · by_cases he : i = e.1
      · simp [hi, he, List.mem_cons]
      · simp [hi, he, List.mem_cons]

@[simp]
lemma cname_setClassSigAttr (w : World) (cid did i : Nat) :
    ((setClassSigAttr w cid did).classes i).cname = (w.classes i).cname := by
  simp only [setClassSigAttr]
  by_cases hi : i = cid <;> simp [hi]

@[simp]
lemma cname_setClassTypeAttr (w : World) (cid did i : Nat) :
    ((setClassTypeAttr w cid did).classes i).cname = (w.classes i).cname := by
  simp only [setClassTypeAttr]
  by_cases hi : i = cid <;> simp [hi]

/-! ## The abstract base stays clean (claim C3 machinery) -/

lemma wdclean_addClassObj (w : World) (c : ClassObj)
    (hw : WDClean w.classes) (hc : c.sigAttr = none ∧ c.typeAttr = none) :
    WDClean (addClassObj w c).classes := by
  intro cid h
  simp only [addClassObj] at h ⊢
  by_cases hcid : cid = w.numClasses
  · simpa [hcid] using hc
  · simp only [hcid, if_false] at h ⊢
    exact hw cid h

lemma wdclean_setClassSigAttr (w : World) (cid did : Nat)
    (hw : WDClean w.classes) (hname : (w.classes cid).cname ≠ "WorkflowDefinition") :
    WDClean (setClassSigAttr w cid did).classes := by
  intro i h
  simp only [setClassSigAttr] at h ⊢
  by_cases hi : i = cid
  · rw [if_pos hi] at h
    exact absurd h (by simpa [hi] using hname)
  · simp only [hi, if_false] at h ⊢
    exact hw i h

lemma wdclean_setClassTypeAttr (w : World) (cid did : Nat)
    (hw : WDClean w.classes) (hname : (w.classes cid).cname ≠ "WorkflowDefinition") :
    WDClean (setClassTypeAttr w cid did).classes := by
  intro i h
  simp only [setClassTypeAttr] at h ⊢
  by_cases hi : i = cid
  · rw [if_pos hi] at h
    exact absurd h (by simpa [hi] using hname)
  · simp only [hi, if_false] at h ⊢
    exact hw i h

@[simp]
lemma cname_attachSignals (w : World) (cid : Nat)
    (signals : List (String × Nat)) (i : Nat) :
    ((attachSignals w cid signals).classes i).cname = (w.classes i).cname := by
  unfold attachSignals
  split <;> simp

lemma wdclean_attachSignals (w : World) (cid : Nat)
    (signals : List (String × Nat)) (hw : WDClean w.classes)
    (hname : (w.classes cid).cname ≠ "WorkflowDefinition") :
    WDClean (attachSignals w cid signals).classes := by
  unfold attachSignals
  split
  · exact wdclean_setClassSigAttr _ _ _ (by simpa using hw) (by simpa using hname)
  · simpa using hw

lemma wdclean_attachTypes (w : World) (cid : Nat)
    (workflow_types : List (Nat × String)) (hw : WDClean w.classes)
    (hname : (w.classes cid).cname ≠ "WorkflowDefinition") :
    WDClean (attachTypes w cid workflow_types).classes := by
  unfold attachTypes
  split
  · exact wdclean_setClassTypeAttr _ _ _ (by simpa using hw) (by simpa using hname)
  · simpa using hw

lemma wdclean_attachCatalogs (w : World) (cid : Nat) (n : String)
    (signals : List (String × Nat)) (wtList : List (Nat × String))
    (hw : WDClean w.classes)
    (hname : (w.classes cid).cname ≠ "WorkflowDefinition") :
    WDClean (attachCatalogs w cid n signals wtList).classes := by
  unfold attachCatalogs
  apply wdclean_attachTypes
  · intro i h
    rw [resetNames_classes] at h ⊢
    exact wdclean_attachSignals w cid signals hw hname i h
  · rw [resetNames_classes, cname_attachSignals]
    exact hname

lemma wdclean_metaInit (w : World) (n : String) (bases : List Nat)
    (dct : List Member) (hw : WDClean w.classes) :
    WDClean (metaInit w n bases dct).1.classes := by
  by_cases hn : n = "WorkflowDefinition"
  · simp only [metaInit, hn, if_pos rfl]
    exact wdclean_addClassObj _ _ hw ⟨rfl, rfl⟩
  · simp only [metaInit, if_neg hn]
    apply wdclean_attachCatalogs
    · exact wdclean_addClassObj _ _ hw ⟨rfl, rfl⟩
    · simpa [addClassObj] using hn

lemma wdclean_runProgram (prog : List ClassDecl) :
    WDClean (runProgram prog).classes := by
  have h : ∀ w : World, WDClean w.classes →
      WDClean (prog.foldl (fun w d => (metaInit w d.dname d.dbases d.ddct).1) w).classes := by
    induction prog with
    | nil => intro w hw; exact hw
    | cons d t ih =>
      intro w hw
      exact ih _ (wdclean_metaInit w d.dname d.dbases d.ddct hw)
  apply h
  intro cid hcid
  rw [show (emptyWorld.classes cid).cname = "" from rfl] at hcid
  exact absurd hcid (by decide)

/-! ## Projection lemmas for the attachment phases -/

@[simp]
lemma wtypeNames_addClassObj (w : World) (c : ClassObj) :
    (addClassObj w c).wtypeNames = w.wtypeNames := rfl

@[simp]
lemma mro_setClassSigAttr (w : World) (cid did i : Nat) :
    ((setClassSigAttr w cid did).classes i).mro = (w.classes i).mro := by
  simp only [setClassSigAttr]
  by_cases hi : i = cid <;> simp [hi]

@[simp]
lemma mro_setClassTypeAttr (w : World) (cid did i : Nat) :
    ((setClassTypeAttr w cid did).classes i).mro = (w.classes i).mro := by
  simp only [setClassTypeAttr]
  by_cases hi : i = cid <;> simp [hi]

@[simp]
lemma sigAttr_setClassTypeAttr (w : World) (cid did i : Nat) :
    ((setClassTypeAttr w cid did).classes i).sigAttr = (w.classes i).sigAttr := by
  simp only [setClassTypeAttr]
  by_cases hi : i = cid <;> simp [hi]

@[simp]
lemma typeAttr_setClassSigAttr (w : World) (cid did i : Nat) :
    ((setClassSigAttr w cid did).classes i).typeAttr = (w.classes i).typeAttr := by
  simp only [setClassSigAttr]
  by_cases hi : i = cid <;> simp [hi]

lemma sigAttr_setClassSigAttr_self (w : World) (cid did : Nat) :
    ((setClassSigAttr w cid did).classes cid).sigAttr = some did := by
  simp [setClassSigAttr]

lemma typeAttr_setClassTypeAttr_self (w : World) (cid did : Nat) :
    ((setClassTypeAttr w cid did).classes cid).typeAttr = some did := by
  simp [setClassTypeAttr]

@[simp]
lemma mro_attachSignals (w : World) (cid : Nat) (signals : List (String × Nat))
    (i : Nat) :
    ((attachSignals w cid signals).classes i).mro = (w.classes i).mro := by
  unfold attachSignals
  split <;> simp

@[simp]
lemma typeAttr_attachSignals (w : World) (cid : Nat)
    (signals : List (String × Nat)) (i : Nat) :
    ((attachSignals w cid signals).classes i).typeAttr =
      (w.classes i).typeAttr := by
  unfold attachSignals
  split <;> simp

@[simp]
lemma numClasses_attachSignals (w : World) (cid : Nat)
    (signals : List (String × Nat)) :
    (attachSignals w cid signals).numClasses = w.numClasses := by
  unfold attachSignals
  split <;> rfl

@[simp]
lemma typeDicts_attachSignals (w : World) (cid : Nat)
    (signals : List (String × Nat)) :
    (attachSignals w cid signals).typeDicts = w.typeDicts := by
  unfold attachSignals
  split <;> rfl

@[simp]
lemma numTypeDicts_attachSignals (w : World) (cid : Nat)
    (signals : List (String × Nat)) :
    (attachSignals w cid signals).numTypeDicts = w.numTypeDicts := by
  unfold attachSignals
  split <;> rfl

@[simp]
lemma wtypeNames_attachSignals (w : World) (cid : Nat)
    (signals : List (String × Nat)) :
    (attachSignals w cid signals).wtypeNames = w.wtypeNames := by
  unfold attachSignals
  split <;> rfl

@[simp]
lemma cname_attachTypes (w : World) (cid : Nat)
    (workflow_types : List (Nat × String)) (i : Nat) :
    ((attachTypes w cid workflow_types).classes i).cname = (w.classes i).cname := by
  unfold attachTypes
  split <;> simp

@[simp]
lemma mro_attachTypes (w : World) (cid : Nat)
    (workflow_types : List (Nat × String)) (i : Nat) :
    ((attachTypes w cid workflow_types).classes i).mro = (w.classes i).mro := by
  unfold attachTypes
  split <;> simp

@[simp]
lemma sigAttr_attachTypes (w : World) (cid : Nat)
    (workflow_types : List (Nat × String)) (i : Nat) :
    ((attachTypes w cid workflow_types).classes i).sigAttr =
      (w.classes i).sigAttr := by
  unfold attachTypes
  split <;> simp

@[simp]
lemma numClasses_attachTypes (w : World) (cid : Nat)
    (workflow_types : List (Nat × String)) :
    (attachTypes w cid workflow_types).numClasses = w.numClasses := by
  unfold attachTypes
  split <;> rfl

@[simp]
lemma sigDicts_attachTypes (w : World) (cid : Nat)
    (workflow_types : List (Nat × String)) :
    (attachTypes w cid workflow_types).sigDicts = w.sigDicts := by
  unfold attachTypes
  split <;> rfl

@[simp]
lemma numSigDicts_attachTypes (w : World) (cid : Nat)
    (workflow_types : List (Nat × String)) :
    (attachTypes w cid workflow_types).numSigDicts = w.numSigDicts := by
  unfold attachTypes
  split <;> rfl

@[simp]
lemma wtypeNames_attachTypes (w : World) (cid : Nat)
    (workflow_types : List (Nat × String)) :
    (attachTypes w cid workflow_types).wtypeNames = w.wtypeNames := by
  unfold attachTypes
  split <;> rfl

/-- `findSigAttr` only depends on MROs and `sigAttr` fields. -/
lemma findSigAttr_congr (w' w : World) (cid : Nat)
    (hm : ∀ i, (w'.classes i).mro = (w.classes i).mro)
    (hs : ∀ i, (w'.classes i).sigAttr = (w.classes i).sigAttr) :
    findSigAttr w' cid = findSigAttr w cid := by
  unfold findSigAttr
  rw [hm cid, funext hs]

/-- `findTypeAttr` only depends on MROs and `typeAttr` fields. -/
lemma findTypeAttr_congr (w' w : World) (cid : Nat)
    (hm : ∀ i, (w'.classes i).mro = (w.classes i).mro)
    (ht : ∀ i, (w'.classes i).typeAttr = (w.classes i).typeAttr) :
    findTypeAttr w' cid = findTypeAttr w cid := by
  unfold findTypeAttr
  rw [hm cid, funext ht]

/-- After the signal block, `hasattr(cls, '_workflow_signals')` holds for the
class under construction (its MRO starts with itself). -/
lemma findSigAttr_attachSignals_isSome (w : World) (cid : Nat)
    (signals : List (String × Nat))
    (hmro : ∃ rest, (w.classes cid).mro = cid :: rest) :
    (findSigAttr (attachSignals w cid signals) cid).isSome = true := by
  obtain ⟨rest, hrest⟩ := hmro
  unfold attachSignals
  cases hfs : findSigAttr w cid with
  | none =>
    unfold findSigAttr
    rw [mro_setClassSigAttr]
    simp only [classes_allocSigDict]
    rw [hrest, List.findSome?_cons, sigAttr_setClassSigAttr_self]
    rfl
  | some did =>
    rw [findSigAttr_congr _ w cid (fun i => by simp) (fun i => by simp), hfs]
    rfl

/-- After the type block, `hasattr(cls, '_workflow_types')` holds for the
class under construction. -/
lemma findTypeAttr_attachTypes_isSome (w : World) (cid : Nat)
    (workflow_types : List (Nat × String))
    (hmro : ∃ rest, (w.classes cid).mro = cid :: rest) :
    (findTypeAttr (attachTypes w cid workflow_types) cid).isSome = true := by
  obtain ⟨rest, hrest⟩ := hmro
  unfold attachTypes
  cases hft : findTypeAttr w cid with
  | none =>
    unfold findTypeAttr
    rw [mro_setClassTypeAttr]
    simp only [classes_allocTypeDict]
    rw [hrest, List.findSome?_cons, typeAttr_setClassTypeAttr_self]
    rfl
  | some did =>
    rw [findTypeAttr_congr _ w cid (fun i => by simp) (fun i => by simp), hft]
    rfl

/-- After the whole attachment phase, both catalog attributes resolve for the
class under construction. -/
lemma findAttrs_attachCatalogs_isSome (w : World) (cid : Nat) (n : String)
    (signals : List (String × Nat)) (wtList : List (Nat × String))
    (hmro : ∃ rest, (w.classes cid).mro = cid :: rest) :
    (findSigAttr (attachCatalogs w cid n signals wtList) cid).isSome = true ∧
    (findTypeAttr (attachCatalogs w cid n signals wtList) cid).isSome = true := by
  obtain ⟨rest, hrest⟩ := hmro
  unfold attachCatalogs
  constructor
  · rw [findSigAttr_congr _ (attachSignals w cid signals) cid
      (fun i => by simp) (fun i => by simp)]
    exact findSigAttr_attachSignals_isSome w cid signals ⟨rest, hrest⟩
  · apply findTypeAttr_attachTypes_isSome
    refine ⟨rest, ?_⟩
    rw [resetNames_classes, mro_attachSignals]
    exact hrest

/-- After the attachment phase every descriptor newly declared in the class
body carries the class's name; all other descriptors keep their names. -/
lemma attachCatalogs_wtypeNames (w : World) (cid : Nat) (n : String)
    (signals : List (String × Nat)) (wtList : List (Nat × String)) (i : Nat) :
    (attachCatalogs w cid n signals wtList).wtypeNames i =
      if i ∈ wtList.map Prod.fst then n else w.wtypeNames i := by
  unfold attachCatalogs
  rw [wtypeNames_attachTypes, resetNames_wtypeNames, wtypeNames_attachSignals]

/-- The attachment phase never renames a class. -/
lemma cname_attachCatalogs (w : World) (cid : Nat) (n : String)
    (signals : List (String × Nat)) (wtList : List (Nat × String)) (i : Nat) :
    ((attachCatalogs w cid n signals wtList).classes i).cname =
      (w.classes i).cname := by
  unfold attachCatalogs
  rw [cname_attachTypes]
  rw [show ((resetNames n wtList (attachSignals w cid signals)).classes i).cname
    = ((attachSignals w cid signals).classes i).cname from by rw [resetNames_classes]]
  rw [cname_attachSignals]

/-- The attachment phase does not create classes. -/
lemma numClasses_attachCatalogs (w : World) (cid : Nat) (n : String)
    (signals : List (String × Nat)) (wtList : List (Nat × String)) :
    (attachCatalogs w cid n signals wtList).numClasses = w.numClasses := by
  unfold attachCatalogs
  rw [numClasses_attachTypes, resetNames_numClasses, numClasses_attachSignals]

/-! ## Dict lemmas (last-write-wins) -/

lemma alookup_map_self {α β : Type} [DecidableEq α] (d : List (α × β)) (k : α)
    (v : β) (h : d.any (fun p => p.1 = k) = true) :
    alookup (d.map (fun p => if p.1 = k then (k, v) else p)) k = some v := by
  induction d with
  | nil => simp at h
  | cons p t ih =>
    by_cases hp : p.1 = k
    · simp [alookup, hp]
    · have ht : t.any (fun p => p.1 = k) = true := by
        simpa [List.any_cons, hp] using h
      simp [alookup, hp, ih ht]

lemma alookup_append_self {α β : Type} [DecidableEq α] (d : List (α × β))
    (k : α) (v : β) (h : d.any (fun p => p.1 = k) = false) :
    alookup (d ++ [(k, v)]) k = some v := by
  induction d with
  | nil => simp [alookup]
  | cons p t ih =>
    have hp : ¬p.1 = k := by
      intro hc
      simp [List.any_cons, hc] at h
    have ht : t.any (fun p => p.1 = k) = false := by
      simpa [List.any_cons, hp] using h
    simp [alookup, hp, ih ht]

/-- Python dict insertion: the inserted value is what a lookup of its key
finds afterwards (the previous binding, if any, is gone). -/
lemma alookup_updOrAppend {α β : Type} [DecidableEq α] (d : List (α × β))
    (k : α) (v : β) :
    alookup (updOrAppend d k v) k = some v := by
  unfold updOrAppend
  split
  case isTrue h => exact alookup_map_self d k v h
  case isFalse h =>
    exact alookup_append_self d k v (by simp only [Bool.not_eq_true] at h; exact h)

/-- Scanning a class body that ends in a signal declaration: the signal map
gets that entry last (overwriting a same-named earlier one), the entry-point
list is untouched. -/
lemma scanDct_append_signal (dct : List Member) (k : String) (fid : Nat) :
    scanDct (dct ++ [signalMember k fid]) =
      (updOrAppend (scanDct dct).1 k fid, (scanDct dct).2) := by
  unfold scanDct
  rw [List.foldl_append]
  rfl

/-- Scanning a class body that ends in a doubly-classified member: the
`elif` catalogs it as a signal handler only. -/
lemma scanDct_append_both (dct : List Member) (s : String) (wt : Nat)
    (fname : String) (fid : Nat) :
    scanDct (dct ++ [bothMember s wt fname fid]) =
      (updOrAppend (scanDct dct).1 s fid, (scanDct dct).2) := by
  unfold scanDct
  rw [List.foldl_append]
  rfl

/-- Post-construction public operations never change the stored execution
identity. -/
lemma runPublicOps_execution (o : WorkflowInstance) (ops : List PublicOp) :
    (runPublicOps o ops).workflow_execution = o.workflow_execution := by
  induction ops generalizing o with
  | nil => rfl
  | cons op t ih =>
    have h2 : (applyPublicOp o op).workflow_execution = o.workflow_execution := by
      cases op <;> rfl
    calc (runPublicOps o (op :: t)).workflow_execution
        = (runPublicOps (applyPublicOp o op) t).workflow_execution := rfl
      _ = o.workflow_execution := (ih (applyPublicOp o op)).trans h2

/-! ## The claims -/

/-- Claim C1: the claim says that after `A(W)` declares signal `ping → h1`
and `B(A)` declares `ping → h2`, `B`'s catalog maps `ping` to `h2` while
`A`'s catalog still maps `ping` to `h1`.  In the code, `B`'s construction
finds `A`'s `_workflow_signals` dict by inherited attribute lookup and
mutates it in place, so `A`'s catalog is also `{ping: h2}` afterwards: the
second half of the claim fails on the code. -/
theorem c1_subclass_update_corrupts_ancestor :
    signalCatalog sbB.1 sbB.2 = [(("ping"), 2)] ∧
    signalCatalog sbB.1 sbA.2 = [(("ping"), 2)] ∧
    signalCatalog sbB.1 sbA.2 ≠ [(("ping"), 1)] := by decide

/-- Claim C2: the claim says every concrete class's effective signal catalog
equals its own newly declared handlers overlaid on its ancestors' catalogs
(own entries winning).  For class `A` in the `ping` scenario that union is
`{ping: h1}` (its only ancestor `W` has an empty catalog), but after `B` is
constructed the code leaves `A`'s catalog at `{ping: h2}`: the claimed
equation fails for `A`. -/
theorem c2_ancestor_catalog_violates_union :
    dictUpdate (signalCatalog sbB.1 sbW.2)
      (scanDct [signalMember ("ping") 1]).1 = [(("ping"), 1)] ∧
    signalCatalog sbB.1 sbA.2 = [(("ping"), 2)] ∧
    signalCatalog sbB.1 sbA.2 ≠
      dictUpdate (signalCatalog sbB.1 sbW.2)
        (scanDct [signalMember ("ping") 1]).1 := by decide

/-- Claim C3: in every program (sequence of class constructions), any class
named `WorkflowDefinition` never gets an own `_workflow_signals` or
`_workflow_types` attribute, and when it is the abstract base itself (its
MRO is just itself) both its effective catalogs are empty. -/
theorem c3_abstract_base_never_carries_catalogs (prog : List ClassDecl)
    (cid : Nat)
    (h : ((runProgram prog).classes cid).cname = "WorkflowDefinition") :
    ((runProgram prog).classes cid).sigAttr = none ∧
    ((runProgram prog).classes cid).typeAttr = none ∧
    (((runProgram prog).classes cid).mro = [cid] →
      signalCatalog (runProgram prog) cid = [] ∧
      typeCatalog (runProgram prog) cid = []) := by
  obtain ⟨h1, h2⟩ := wdclean_runProgram prog cid h
  refine ⟨h1, h2, fun hm => ⟨?_, ?_⟩⟩
  · unfold signalCatalog findSigAttr
    rw [hm]
    simp [h1]
  · unfold typeCatalog findTypeAttr
    rw [hm]
    simp [h2]

/-- Witness for C3: the base class constructed alone, then with two concrete
subclasses registering entries, still carries nothing. -/
theorem c3_abstract_base_never_carries_catalogs_witness :
    ((runProgram [⟨"WorkflowDefinition", [], []⟩,
        ⟨"A", [0], [signalMember ("ping") 1]⟩]).classes 0).cname =
      "WorkflowDefinition" ∧
    ((runProgram [⟨"WorkflowDefinition", [], []⟩,
        ⟨"A", [0], [signalMember ("ping") 1]⟩]).classes 0).sigAttr = none ∧
    ((runProgram [⟨"WorkflowDefinition", [], []⟩,
        ⟨"A", [0], [signalMember ("ping") 1]⟩]).classes 0).typeAttr = none ∧
    signalCatalog (runProgram [⟨"WorkflowDefinition", [], []⟩,
        ⟨"A", [0], [signalMember ("ping") 1]⟩]) 0 = [] ∧
    typeCatalog (runProgram [⟨"WorkflowDefinition", [], []⟩,
        ⟨"A", [0], [signalMember ("ping") 1]⟩]) 0 = [] := by
  have h := c3_abstract_base_never_carries_catalogs
    [⟨"WorkflowDefinition", [], []⟩, ⟨"A", [0], [signalMember ("ping") 1]⟩]
    0 (by decide)
  obtain ⟨h1, h2, h3⟩ := h
  obtain ⟨h4, h5⟩ := h3 (by decide)
  exact ⟨by decide, h1, h2, h4, h5⟩

/-- Claim C4 counterexample: `A(W)` declares entry point `run` with a
descriptor; `B(A)` declares nothing. The descriptor appears in `B`'s
effective entry-point catalog but its display name is `A`, not `B` — the
inheritance-merge part of the claim fails (the code renames only newly
declared descriptors). -/
theorem c4_inherited_descriptor_keeps_old_name :
    typeCatalog ihB.1 ihB.2 = [(ihT.2, ("run"))] ∧
    (ihB.1.classes ihB.2).cname = "B" ∧
    wtypeName ihB.1 ihT.2 = "A" ∧
    wtypeName ihB.1 ihT.2 ≠ (ihB.1.classes ihB.2).cname := by decide

/-- Claim C4 amended: a descriptor's display name equals the name of the
class whose *own body* declared the decorated method — at that class's
construction every newly declared descriptor is renamed to the class's
name; descriptors reaching a catalog by inheritance are not renamed. -/
theorem c4_descriptor_named_after_declaring_class (w : World) (n : String)
    (bases : List Nat) (dct : List Member) (wt : Nat) (fname : String)
    (hn : n ≠ "WorkflowDefinition") (hwt : (wt, fname) ∈ (scanDct dct).2) :
    wtypeName (metaInit w n bases dct).1 wt = n := by
  simp only [metaInit, if_neg hn, wtypeName]
  rw [attachCatalogs_wtypeNames]
  rw [if_pos (List.mem_map_of_mem Prod.fst hwt)]

/-- Witness for the amended C4. -/
theorem c4_descriptor_named_after_declaring_class_witness :
    ("A" : String) ≠ "WorkflowDefinition" ∧
    (ihT.2, ("run")) ∈ (scanDct [executeMember ihT.2 ("run") 1]).2 ∧
    wtypeName (metaInit ihW.1 "A" [ihW.2] [executeMember ihT.2 ("run") 1]).1
      ihT.2 = "A" :=
  ⟨by decide, by decide,
    c4_descriptor_named_after_declaring_class ihW.1 "A" [ihW.2]
      [executeMember ihT.2 ("run") 1] ihT.2 ("run") (by decide) (by decide)⟩

/-- Claim C5: construction stores the execution identity verbatim,
initializes the status to the empty string and the result handle to absent,
and the three getters return exactly those values. -/
theorem c5_construction_initializes_instance (we : WorkflowExecution) :
    getWorkflowExecution (initWorkflowDefinition we) = we ∧
    getWorkflowState (initWorkflowDefinition we) = "" ∧
    getWorkflowResult (initWorkflowDefinition we) = none :=
  ⟨rfl, rfl, rfl⟩

/-- Claim C6: after any sequence of post-construction public operations
(status get/set, result-handle get), the execution-identity getter still
returns the value supplied at construction. -/
theorem c6_execution_identity_stable (we : WorkflowExecution)
    (ops : List PublicOp) :
    getWorkflowExecution (runPublicOps (initWorkflowDefinition we) ops) = we := by
  show (runPublicOps (initWorkflowDefinition we) ops).workflow_execution = we
  rw [runPublicOps_execution]
  rfl

/-- Claim C7: two sibling subclasses of the abstract base, with arbitrary
class bodies: each sibling's effective catalogs hold exactly its own newly
declared entries (so neither contains the other's), and the base's catalogs
stay empty. -/
theorem c7_sibling_catalogs_disjoint (dctA dctC : List Member) :
    signalCatalog (sibC dctA dctC).1 (sibA dctA).2 = (scanDct dctA).1 ∧
    signalCatalog (sibC dctA dctC).1 (sibC dctA dctC).2 = (scanDct dctC).1 ∧
    typeCatalog (sibC dctA dctC).1 (sibA dctA).2 =
      buildTypeDict (scanDct dctA).2 ∧
    typeCatalog (sibC dctA dctC).1 (sibC dctA dctC).2 =
      buildTypeDict (scanDct dctC).2 ∧
    signalCatalog (sibC dctA dctC).1 sibW.2 = [] ∧
    typeCatalog (sibC dctA dctC).1 sibW.2 = [] := by
  simp [sibC, sibA, sibW, metaInit, attachCatalogs, attachSignals, attachTypes,
    addClassObj, setClassSigAttr, setClassTypeAttr,
    allocSigDict, allocTypeDict, writeSigDict, writeTypeDict, emptyWorld,
    dedupKeepFirst, signalCatalog, typeCatalog, findSigAttr, findTypeAttr]

/-- Claim C8: class construction always completes and registers the class
(also on malformed or colliding metadata — there is no validation), and a
later same-named signal declaration silently replaces the earlier entry in
the local signal map (last-write-wins). -/
theorem c8_no_validation_last_write_wins (w : World) (n : String)
    (bases : List Nat) (dct : List Member) (k : String) (fid : Nat) :
    ((metaInit w n bases dct).1.classes (metaInit w n bases dct).2).cname = n ∧
    (metaInit w n bases dct).1.numClasses = w.numClasses + 1 ∧
    alookup (scanDct (dct ++ [signalMember k fid])).1 k = some fid := by
  refine ⟨?_, ?_, ?_⟩
  · by_cases hn : n = "WorkflowDefinition"
    · simp only [metaInit, hn, if_pos rfl]
      simp [addClassObj]
    · simp only [metaInit, if_neg hn]
      rw [cname_attachCatalogs]
      simp [addClassObj]
  · by_cases hn : n = "WorkflowDefinition"
    · simp only [metaInit, hn, if_pos rfl]
      rfl
    · simp only [metaInit, if_neg hn]
      rw [numClasses_attachCatalogs]
      rfl
  · rw [scanDct_append_signal]
    exact alookup_updOrAppend (scanDct dct).1 k fid

/-- Claim C9: the abstract-base exemption tests the class's *name string*.
A class named exactly `WorkflowDefinition` — whoever defines it, with any
bases and any body — is skipped before attachment: it gets no own catalog
attributes and no heap dict or descriptor is touched.  A class with any
other name proceeds to attachment: afterwards both catalog attributes
resolve for it. -/
theorem c9_exemption_by_name_string (w : World) (n : String)
    (bases : List Nat) (dct : List Member) :
    (n = "WorkflowDefinition" →
      ((metaInit w n bases dct).1.classes (metaInit w n bases dct).2).sigAttr
        = none ∧
      ((metaInit w n bases dct).1.classes (metaInit w n bases dct).2).typeAttr
        = none ∧
      (metaInit w n bases dct).1.sigDicts = w.sigDicts ∧
      (metaInit w n bases dct).1.typeDicts = w.typeDicts ∧
      (metaInit w n bases dct).1.wtypeNames = w.wtypeNames) ∧
    (n ≠ "WorkflowDefinition" →
      (findSigAttr (metaInit w n bases dct).1
        (metaInit w n bases dct).2).isSome = true ∧
      (findTypeAttr (metaInit w n bases dct).1
        (metaInit w n bases dct).2).isSome = true) := by
  constructor
  · intro hn
    simp only [metaInit, hn, if_pos rfl]
    refine ⟨?_, ?_, rfl, rfl, rfl⟩
    · simp [addClassObj]
    · simp [addClassObj]
  · intro hn
    simp only [metaInit, if_neg hn]
    apply findAttrs_attachCatalogs_isSome
    refine ⟨dedupKeepFirst ((bases.map (fun b => (w.classes b).mro)).flatten), ?_⟩
    simp [addClassObj]

/-- Witness for C9 (both branches exercised at concrete inputs). -/
theorem c9_exemption_by_name_string_witness :
    (((metaInit sbA.1 "WorkflowDefinition" [sbA.2]
        [signalMember ("late") 9]).1.classes
      (metaInit sbA.1 "WorkflowDefinition" [sbA.2]
        [signalMember ("late") 9]).2).sigAttr = none ∧
     (metaInit sbA.1 "WorkflowDefinition" [sbA.2]
        [signalMember ("late") 9]).1.sigDicts = sbA.1.sigDicts) ∧
    (findSigAttr sbB.1 sbB.2).isSome = true := by
  have h1 := (c9_exemption_by_name_string sbA.1 "WorkflowDefinition" [sbA.2]
    [signalMember ("late") 9]).1 rfl
  have h2 := (c9_exemption_by_name_string sbA.1 "B" [sbA.2]
    [signalMember ("ping") 2]).2 (by decide)
  exact ⟨⟨h1.1, h1.2.2.1⟩, h2.1⟩

/-- Claim C10: a member carrying both a signal-type and a workflow-type
classification is cataloged as a signal handler only (the `elif` skips the
entry-point branch), and constructing a class whose body is that single
member performs no descriptor rename at all. -/
theorem c10_signal_classification_precedence (w : World) (n : String)
    (bases : List Nat) (s : String) (wt : Nat) (fname : String) (fid : Nat)
    (dct : List Member) :
    scanDct (dct ++ [bothMember s wt fname fid]) =
      (updOrAppend (scanDct dct).1 s fid, (scanDct dct).2) ∧
    (metaInit w n bases [bothMember s wt fname fid]).1.wtypeNames =
      w.wtypeNames := by
  refine ⟨scanDct_append_both dct s wt fname fid, ?_⟩
  by_cases hn : n = "WorkflowDefinition"
  · simp only [metaInit, hn, if_pos rfl]
    rfl
  · simp only [metaInit, if_neg hn]
    funext i
    rw [show (scanDct [bothMember s wt fname fid]).2 = [] from rfl]
    rw [attachCatalogs_wtypeNames]
    simp
